import Mathlib

/-!
Shallow embedding of src/cardano-address-audit.js: the ledger-aggregation
core that folds per-transaction UTXO detail into address-scoped totals.

Modelling conventions:
- JavaScript BigInt lovelace quantities are modelled as Nat (the data model
  requires non-negative arbitrary-precision integers in the smallest
  denomination, and Blockfrost quantities are non-negative decimal strings).
- A fetched transaction detail is an Except value: Except.error models a
  rejected HTTP request or a thrown parse error at fetch time.
- Fields the data source may omit are Option values: iterating a missing
  field in JavaScript (for .. of undefined) throws a TypeError at the point
  of iteration, which the per-transaction catch block then swallows.  The
  embedding reproduces the exact point at which the throw happens, because
  global state mutated before the throw is NOT rolled back by the catch.
- The final conversion Number(x) / 1e6 is modelled as exact rational
  division; it is the single conversion point at report construction.
- process.exit(1) with no report is modelled as an Except.error result of
  the whole run.
-/

namespace CardanoAddressAudit

/-- Amount: a pair of unit identifier and quantity, as returned by the data
source inside the amount arrays of UTXO entries. -/
structure Amount where
  unit : String
  quantity : Nat
deriving Repr, DecidableEq

/-- UTXO Entry: an address together with its ordered amount list, used for
both inputs and outputs of a transaction. -/
structure UtxoEntry where
  address : String
  amount : List Amount
deriving Repr, DecidableEq

/-- Result of GET /txs/hash/utxos.  The inputs and outputs fields are
Option because the third-party source occasionally omits them; the code
has no defaulting, so iteration of a missing field throws. -/
structure TxUtxos where
  inputs : Option (List UtxoEntry)
  outputs : Option (List UtxoEntry)
deriving Repr, DecidableEq

/-- Result of GET /txs/hash.  Only the fee field is used; a missing fee
makes BigInt(txinfo.fee) throw, modelled by none. -/
structure TxInfo where
  fee : Option Nat
deriving Repr, DecidableEq

/-- sumLovelaceAmount from the source: find the first amount whose unit is
the string lovelace and return its quantity, or 0 when there is none. -/
def sumLovelaceAmount (arr : List Amount) : Nat :=
  match arr.find? (fun a => a.unit == "lovelace") with
  | none => 0
  | some item => item.quantity

/-- One element of the perTxSummary array pushed at the end of a successful
transaction iteration. -/
structure TxSummary where
  txhash : String
  inputs_from_address_lovelace : Nat
  outputs_to_address_lovelace : Nat
  fee_lovelace : Nat
  fee_attributed_lovelace : Nat
  outgoing_assets : List Amount
deriving Repr, DecidableEq

/-- The running totals of the main loop.  outgoingAssetsSet models the
JavaScript Set as an insertion-ordered duplicate-free list. -/
structure AggState where
  totalReceivedLovelace : Nat
  totalSpentLovelace : Nat
  totalFeesAttributed : Nat
  outgoingWithAssetsCount : Nat
  outgoingAssetsSet : List String
  perTxSummary : List TxSummary
deriving Repr, DecidableEq

/-- Set.add of the JavaScript outgoingAssetsSet: append the unit only when
it is not already present. -/
def setAdd (s : List String) (u : String) : List String :=
  if u ∈ s then s else s ++ [u]

/-- The local mutable variables of a single transaction iteration during
the input loop, together with the global asset set it mutates. -/
structure InputScan where
  totalInputsLovelace : Nat
  inputsFromAddressLovelace : Nat
  inputsFromAddressHasAssets : Bool
  assetsMovedFromAddressThisTx : List Amount
  outgoingAssetsSet : List String
deriving Repr, DecidableEq

/-- Body of the inner loop over the amounts of an input entry whose address
matched: every non-lovelace unit marks the transaction as asset-moving, is
pushed on the per-transaction asset list and added to the global set. -/
def amountAssetStep (st : InputScan) (a : Amount) : InputScan :=
  if a.unit != "lovelace" then
    { st with
      inputsFromAddressHasAssets := true
      assetsMovedFromAddressThisTx := st.assetsMovedFromAddressThisTx ++ [a]
      outgoingAssetsSet := setAdd st.outgoingAssetsSet a.unit }
  else st

/-- Body of the loop over the input entries of one transaction: add the
lovelace of the entry to the transaction-wide total, and when the entry
belongs to the audited address also to the from-address total, scanning its
amounts for non-lovelace assets. -/
def scanInput (address : String) (st : InputScan) (inp : UtxoEntry) : InputScan :=
  let inpL := sumLovelaceAmount inp.amount
  let st1 := { st with totalInputsLovelace := st.totalInputsLovelace + inpL }
  if inp.address == address then
    inp.amount.foldl amountAssetStep
      { st1 with inputsFromAddressLovelace := st1.inputsFromAddressLovelace + inpL }
  else st1

/-- The whole input loop of one transaction, starting from zeroed local
variables and the current global asset set. -/
def inputsScan (address : String) (inputs : List UtxoEntry) (set0 : List String) : InputScan :=
  inputs.foldl (scanInput address)
    { totalInputsLovelace := 0
      inputsFromAddressLovelace := 0
      inputsFromAddressHasAssets := false
      assetsMovedFromAddressThisTx := []
      outgoingAssetsSet := set0 }

/-- Transaction-wide input lovelace as an independent sum, for stating
properties of the interleaved scan. -/
def totalInputsLovelace (inputs : List UtxoEntry) : Nat :=
  (inputs.map (fun i => sumLovelaceAmount i.amount)).sum

/-- Lovelace contributed by the audited address as input, as an independent
sum over the address-matching entries. -/
def inputsFromAddressLovelace (address : String) (inputs : List UtxoEntry) : Nat :=
  ((inputs.filter (fun i => i.address == address)).map
    (fun i => sumLovelaceAmount i.amount)).sum

/-- Lovelace received by the audited address: the output loop sums the
lovelace of every output entry whose address matches. -/
def outputsToAddressLovelace (address : String) (outputs : List UtxoEntry) : Nat :=
  outputs.foldl
    (fun acc out =>
      if out.address == address then acc + sumLovelaceAmount out.amount else acc) 0

/-- The fee-attribution formula of the source: when the address contributed
positive input lovelace and the transaction-wide input lovelace is positive,
the floor share fee * from / total, otherwise zero. -/
def feeAttributedToThisAddress (address : String) (fee : Nat)
    (inputs : List UtxoEntry) : Nat :=
  if 0 < inputsFromAddressLovelace address inputs ∧ 0 < totalInputsLovelace inputs then
    fee * inputsFromAddressLovelace address inputs / totalInputsLovelace inputs
  else 0

/-- One iteration of the main loop, catch block included.  Every early
return of the state models a thrown-and-caught error: a failed fetch, a
missing fee (BigInt throws), missing inputs (for .. of throws before any
mutation) or missing outputs (for .. of throws after the input loop, so the
additions the input loop made to the global asset set persist). -/
def processOneTx (address : String) (st : AggState) (txhash : String)
    (fetched : Except String (TxUtxos × TxInfo)) : AggState :=
  match fetched with
  | .error _ => st
  | .ok (utxos, txinfo) =>
    match txinfo.fee with
    | none => st
    | some feeLovelace =>
      match utxos.inputs with
      | none => st
      | some inputs =>
        let scan := inputsScan address inputs st.outgoingAssetsSet
        match utxos.outputs with
        | none => { st with outgoingAssetsSet := scan.outgoingAssetsSet }
        | some outputs =>
          let outL := outputsToAddressLovelace address outputs
          let feeAttr :=
            if 0 < scan.inputsFromAddressLovelace ∧ 0 < scan.totalInputsLovelace then
              feeLovelace * scan.inputsFromAddressLovelace / scan.totalInputsLovelace
            else 0
          { totalReceivedLovelace := st.totalReceivedLovelace + outL
            totalSpentLovelace := st.totalSpentLovelace + scan.inputsFromAddressLovelace
            totalFeesAttributed := st.totalFeesAttributed + feeAttr
            outgoingWithAssetsCount := st.outgoingWithAssetsCount +
              (if scan.inputsFromAddressHasAssets then 1 else 0)
            outgoingAssetsSet := scan.outgoingAssetsSet
            perTxSummary := st.perTxSummary ++
              [{ txhash := txhash
                 inputs_from_address_lovelace := scan.inputsFromAddressLovelace
                 outputs_to_address_lovelace := outL
                 fee_lovelace := feeLovelace
                 fee_attributed_lovelace := feeAttr
                 outgoing_assets := scan.assetsMovedFromAddressThisTx }] }

/-- Zeroed totals before the main loop. -/
def initialState : AggState :=
  { totalReceivedLovelace := 0
    totalSpentLovelace := 0
    totalFeesAttributed := 0
    outgoingWithAssetsCount := 0
    outgoingAssetsSet := []
    perTxSummary := [] }

/-- The main loop: fold every located transaction hash, paired with the
result of its detail fetches, through processOneTx. -/
def runAggregator (address : String)
    (txs : List (String × Except String (TxUtxos × TxInfo))) : AggState :=
  txs.foldl (fun st tx => processOneTx address st tx.1 tx.2) initialState

/-- The final summary object.  The three ada fields are rationals standing
for the single Number(x) / 1e6 conversion at report construction. -/
structure Report where
  address : String
  tx_count : Nat
  total_received_ada : ℚ
  total_spent_ada : ℚ
  net_ada_change : ℚ
  estimated_fees_paid_ada : ℚ
  outgoing_txs_with_assets_count : Nat
  unique_asset_units_moved_out : List String
  per_tx_count : Nat
deriving Repr, DecidableEq

/-- Report construction from the final accumulator state: divide the three
lovelace accumulators by 1,000,000 exactly once, compute the net as the
difference of the converted values, materialize the asset set as a list and
take per_tx_count from the summary array length. -/
def buildReport (address : String) (txCount : Nat) (st : AggState) : Report :=
  let totalReceivedAda : ℚ := (st.totalReceivedLovelace : ℚ) / 1000000
  let totalSpentAda : ℚ := (st.totalSpentLovelace : ℚ) / 1000000
  let totalFeesAttributedAda : ℚ := (st.totalFeesAttributed : ℚ) / 1000000
  { address := address
    tx_count := txCount
    total_received_ada := totalReceivedAda
    total_spent_ada := totalSpentAda
    net_ada_change := totalReceivedAda - totalSpentAda
    estimated_fees_paid_ada := totalFeesAttributedAda
    outgoing_txs_with_assets_count := st.outgoingWithAssetsCount
    unique_asset_units_moved_out := st.outgoingAssetsSet
    per_tx_count := st.perTxSummary.length }

/-- The whole run after argument parsing: a failed transaction-list fetch
aborts with no report (process.exit(1)); otherwise every located hash is
processed in order and the report is built from the final state. -/
def runAudit (address : String)
    (txList : Except String (List String))
    (fetch : String → Except String (TxUtxos × TxInfo)) : Except String Report :=
  match txList with
  | .error e => .error e
  | .ok txHashes =>
    .ok (buildReport address txHashes.length
      (runAggregator address (txHashes.map (fun h => (h, fetch h)))))

/-- A transaction iteration reaches the summary push exactly when the fetch
succeeded, the fee field was present, and both the inputs and the outputs
arrays were present. -/
def txProcessedOk (fetched : Except String (TxUtxos × TxInfo)) : Bool :=
  match fetched with
  | .error _ => false
  | .ok (utxos, txinfo) =>
    txinfo.fee.isSome && utxos.inputs.isSome && utxos.outputs.isSome

/-- The inputs list the input loop of a transaction iterates, when it runs at
all: the fetch succeeded, the fee parsed, and the inputs field was present.
The loop runs even when the outputs field turns out to be missing later. -/
def scannedInputs (fetched : Except String (TxUtxos × TxInfo)) :
    Option (List UtxoEntry) :=
  match fetched with
  | .error _ => none
  | .ok (utxos, txinfo) =>
    match txinfo.fee with
    | none => none
    | some _ => utxos.inputs

/-- The unit u was recorded as moved out of the audited address by this
transaction: its input loop ran and some input entry of the audited address
carried a non-lovelace amount with that unit. -/
def unitMovedOut (address : String)
    (tx : String × Except String (TxUtxos × TxInfo)) (u : String) : Prop :=
  ∃ ins, scannedInputs tx.2 = some ins ∧
    ∃ e ∈ ins, e.address = address ∧
      ∃ a ∈ e.amount, a.unit ≠ "lovelace" ∧ a.unit = u

/-! ### Helper lemmas about the input scan -/

theorem foldl_preserves {α β : Type _} {P : α → Prop} {f : α → β → α}
    (hf : ∀ a b, P a → P (f a b)) :
    ∀ (l : List β) (a : α), P a → P (l.foldl f a) := by
  intro l
  induction l with
  | nil => intro a ha; exact ha
  | cons b l ih => intro a ha; exact ih _ (hf a b ha)

theorem amountFold_totalInputs (l : List Amount) (st : InputScan) :
    (l.foldl amountAssetStep st).totalInputsLovelace = st.totalInputsLovelace := by
  induction l generalizing st with
  | nil => rfl
  | cons a l ih =>
    rw [List.foldl_cons, ih]
    unfold amountAssetStep
    split <;> rfl

theorem amountFold_inputsFrom (l : List Amount) (st : InputScan) :
    (l.foldl amountAssetStep st).inputsFromAddressLovelace =
      st.inputsFromAddressLovelace := by
  induction l generalizing st with
  | nil => rfl
  | cons a l ih =>
    rw [List.foldl_cons, ih]
    unfold amountAssetStep
    split <;> rfl

theorem scanInput_totalInputs (address : String) (st : InputScan) (inp : UtxoEntry) :
    (scanInput address st inp).totalInputsLovelace =
      st.totalInputsLovelace + sumLovelaceAmount inp.amount := by
  unfold scanInput
  split
  · rw [amountFold_totalInputs]
  · rfl

theorem scanInput_inputsFrom (address : String) (st : InputScan) (inp : UtxoEntry) :
    (scanInput address st inp).inputsFromAddressLovelace =
      st.inputsFromAddressLovelace +
        (if inp.address == address then sumLovelaceAmount inp.amount else 0) := by
  unfold scanInput
  split
  · rw [amountFold_inputsFrom]
  · rfl

theorem totalInputsLovelace_cons (i : UtxoEntry) (l : List UtxoEntry) :
    totalInputsLovelace (i :: l) =
      sumLovelaceAmount i.amount + totalInputsLovelace l := by
  simp [totalInputsLovelace]

theorem inputsFromAddressLovelace_cons (address : String) (i : UtxoEntry)
    (l : List UtxoEntry) :
    inputsFromAddressLovelace address (i :: l) =
      (if i.address == address then sumLovelaceAmount i.amount else 0) +
        inputsFromAddressLovelace address l := by
  simp only [inputsFromAddressLovelace, List.filter_cons]
  split <;> simp_all

theorem scanFold_totalInputs (address : String) (inputs : List UtxoEntry)
    (st : InputScan) :
    (inputs.foldl (scanInput address) st).totalInputsLovelace =
      st.totalInputsLovelace + totalInputsLovelace inputs := by
  induction inputs generalizing st with
  | nil => simp [totalInputsLovelace]
  | cons i l ih =>
    rw [List.foldl_cons, ih, scanInput_totalInputs, totalInputsLovelace_cons]
    omega

theorem scanFold_inputsFrom (address : String) (inputs : List UtxoEntry)
    (st : InputScan) :
    (inputs.foldl (scanInput address) st).inputsFromAddressLovelace =
      st.inputsFromAddressLovelace + inputsFromAddressLovelace address inputs := by
  induction inputs generalizing st with
  | nil => simp [inputsFromAddressLovelace]
  | cons i l ih =>
    rw [List.foldl_cons, ih, scanInput_inputsFrom, inputsFromAddressLovelace_cons]
    omega

theorem inputsScan_totalInputs (address : String) (inputs : List UtxoEntry)
    (set0 : List String) :
    (inputsScan address inputs set0).totalInputsLovelace =
      totalInputsLovelace inputs := by
  unfold inputsScan
  rw [scanFold_totalInputs]
  simp

theorem inputsScan_inputsFrom (address : String) (inputs : List UtxoEntry)
    (set0 : List String) :
    (inputsScan address inputs set0).inputsFromAddressLovelace =
      inputsFromAddressLovelace address inputs := by
  unfold inputsScan
  rw [scanFold_inputsFrom]
  simp

theorem inputsFrom_le_totalInputs (address : String) (inputs : List UtxoEntry) :
    inputsFromAddressLovelace address inputs ≤ totalInputsLovelace inputs := by
  induction inputs with
  | nil => simp [inputsFromAddressLovelace, totalInputsLovelace]
  | cons i l ih =>
    rw [inputsFromAddressLovelace_cons, totalInputsLovelace_cons]
    split <;> omega

theorem feeAttr_le_fee (address : String) (fee : Nat) (inputs : List UtxoEntry) :
    feeAttributedToThisAddress address fee inputs ≤ fee := by
  unfold feeAttributedToThisAddress
  split
  · rename_i h
    calc fee * inputsFromAddressLovelace address inputs / totalInputsLovelace inputs
        ≤ fee * totalInputsLovelace inputs / totalInputsLovelace inputs :=
          Nat.div_le_div_right
            (Nat.mul_le_mul_left fee (inputsFrom_le_totalInputs address inputs))
      _ = fee := Nat.mul_div_cancel fee h.2
  · exact Nat.zero_le fee

/-! ### Characterizations of one loop iteration -/

theorem processOneTx_error (address : String) (st : AggState) (txhash e : String) :
    processOneTx address st txhash (.error e) = st := rfl

theorem processOneTx_noFee (address : String) (st : AggState) (txhash : String)
    (u : TxUtxos) :
    processOneTx address st txhash (.ok (u, { fee := none })) = st := rfl

theorem processOneTx_noInputs (address : String) (st : AggState) (txhash : String)
    (o : Option (List UtxoEntry)) (f : Nat) :
    processOneTx address st txhash
      (.ok ({ inputs := none, outputs := o }, { fee := some f })) = st := rfl

theorem processOneTx_noOutputs (address : String) (st : AggState) (txhash : String)
    (ins : List UtxoEntry) (f : Nat) :
    processOneTx address st txhash
      (.ok ({ inputs := some ins, outputs := none }, { fee := some f })) =
      { st with outgoingAssetsSet :=
          (inputsScan address ins st.outgoingAssetsSet).outgoingAssetsSet } := rfl

theorem processOneTx_ok (address : String) (st : AggState) (txhash : String)
    (ins outs : List UtxoEntry) (f : Nat) :
    processOneTx address st txhash
      (.ok ({ inputs := some ins, outputs := some outs }, { fee := some f })) =
      { totalReceivedLovelace :=
          st.totalReceivedLovelace + outputsToAddressLovelace address outs
        totalSpentLovelace :=
          st.totalSpentLovelace + inputsFromAddressLovelace address ins
        totalFeesAttributed :=
          st.totalFeesAttributed + feeAttributedToThisAddress address f ins
        outgoingWithAssetsCount := st.outgoingWithAssetsCount +
          (if (inputsScan address ins st.outgoingAssetsSet).inputsFromAddressHasAssets
           then 1 else 0)
        outgoingAssetsSet :=
          (inputsScan address ins st.outgoingAssetsSet).outgoingAssetsSet
        perTxSummary := st.perTxSummary ++
          [{ txhash := txhash
             inputs_from_address_lovelace := inputsFromAddressLovelace address ins
             outputs_to_address_lovelace := outputsToAddressLovelace address outs
             fee_lovelace := f
             fee_attributed_lovelace := feeAttributedToThisAddress address f ins
             outgoing_assets :=
               (inputsScan address ins st.outgoingAssetsSet).assetsMovedFromAddressThisTx }] } := by
  simp only [processOneTx, feeAttributedToThisAddress,
    inputsScan_totalInputs, inputsScan_inputsFrom]

/-- The unsuccessful iterations leave every field except the asset set
unchanged; in particular they push no summary and touch no lovelace total. -/
theorem processOneTx_not_ok (address : String) (st : AggState) (txhash : String)
    (fetched : Except String (TxUtxos × TxInfo)) :
    txProcessedOk fetched = false →
      (processOneTx address st txhash fetched).totalReceivedLovelace =
          st.totalReceivedLovelace ∧
      (processOneTx address st txhash fetched).totalSpentLovelace =
          st.totalSpentLovelace ∧
      (processOneTx address st txhash fetched).totalFeesAttributed =
          st.totalFeesAttributed ∧
      (processOneTx address st txhash fetched).outgoingWithAssetsCount =
          st.outgoingWithAssetsCount ∧
      (processOneTx address st txhash fetched).perTxSummary = st.perTxSummary := by
  intro h
  rcases fetched with e | ⟨⟨oi, oo⟩, ⟨ofee⟩⟩
  · exact ⟨rfl, rfl, rfl, rfl, rfl⟩
  · rcases ofee with _ | f
    · exact ⟨rfl, rfl, rfl, rfl, rfl⟩
    · rcases oi with _ | ins
      · exact ⟨rfl, rfl, rfl, rfl, rfl⟩
      · rcases oo with _ | outs
        · exact ⟨rfl, rfl, rfl, rfl, rfl⟩
        · simp [txProcessedOk] at h

/-- How the length of the summary array evolves at each iteration. -/
theorem processOneTx_summary_length (address : String) (st : AggState)
    (txhash : String) (fetched : Except String (TxUtxos × TxInfo)) :
    (processOneTx address st txhash fetched).perTxSummary.length =
      st.perTxSummary.length + (if txProcessedOk fetched then 1 else 0) := by
  rcases fetched with e | ⟨⟨oi, oo⟩, ⟨ofee⟩⟩
  · simp [processOneTx, txProcessedOk]
  · rcases ofee with _ | f
    · simp [processOneTx, txProcessedOk]
    · rcases oi with _ | ins
      · simp [processOneTx, txProcessedOk]
      · rcases oo with _ | outs
        · simp [processOneTx_noOutputs, txProcessedOk]
        · simp [processOneTx_ok, txProcessedOk]

/-! ### The outgoing-asset set: membership and freedom from duplicates -/

theorem mem_setAdd {s : List String} {u v : String} :
    v ∈ setAdd s u ↔ v ∈ s ∨ v = u := by
  unfold setAdd
  split
  · rename_i h
    constructor
    · exact Or.inl
    · rintro (hv | rfl)
      · exact hv
      · exact h
  · simp

theorem setAdd_nodup {s : List String} {u : String} (h : s.Nodup) :
    (setAdd s u).Nodup := by
  unfold setAdd
  split
  · exact h
  · rename_i hu
    simp [List.nodup_append, h, hu]

theorem amountFold_set_mem (l : List Amount) (st : InputScan) (v : String) :
    v ∈ (l.foldl amountAssetStep st).outgoingAssetsSet ↔
      v ∈ st.outgoingAssetsSet ∨
        ∃ a ∈ l, a.unit ≠ "lovelace" ∧ a.unit = v := by
  induction l generalizing st with
  | nil => simp
  | cons a l ih =>
    rw [List.foldl_cons]
    by_cases h : a.unit = "lovelace"
    · rw [show amountAssetStep st a = st from by simp [amountAssetStep, h], ih]
      simp only [List.mem_cons]
      constructor
      · rintro (hv | ⟨b, hb, hbl, hbv⟩)
        · exact Or.inl hv
        · exact Or.inr ⟨b, Or.inr hb, hbl, hbv⟩
      · rintro (hv | ⟨b, rfl | hb, hbl, hbv⟩)
        · exact Or.inl hv
        · exact absurd h hbl
        · exact Or.inr ⟨b, hb, hbl, hbv⟩
    · rw [show amountAssetStep st a =
          { st with
            inputsFromAddressHasAssets := true
            assetsMovedFromAddressThisTx := st.assetsMovedFromAddressThisTx ++ [a]
            outgoingAssetsSet := setAdd st.outgoingAssetsSet a.unit }
        from by simp [amountAssetStep, h], ih]
      simp only [mem_setAdd, List.mem_cons]
      constructor
      · rintro ((hv | rfl) | ⟨b, hb, hbl, hbv⟩)
        · exact Or.inl hv
        · exact Or.inr ⟨a, Or.inl rfl, h, rfl⟩
        · exact Or.inr ⟨b, Or.inr hb, hbl, hbv⟩
      · rintro (hv | ⟨b, rfl | hb, hbl, hbv⟩)
        · exact Or.inl (Or.inl hv)
        · exact Or.inl (Or.inr hbv.symm)
        · exact Or.inr ⟨b, hb, hbl, hbv⟩

theorem amountFold_set_nodup (l : List Amount) (st : InputScan)
    (h : st.outgoingAssetsSet.Nodup) :
    (l.foldl amountAssetStep st).outgoingAssetsSet.Nodup := by
  induction l generalizing st with
  | nil => exact h
  | cons a l ih =>
    rw [List.foldl_cons]
    apply ih
    unfold amountAssetStep
    split
    · exact setAdd_nodup h
    · exact h

theorem scanInput_set_mem (address : String) (st : InputScan) (inp : UtxoEntry)
    (v : String) :
    v ∈ (scanInput address st inp).outgoingAssetsSet ↔
      v ∈ st.outgoingAssetsSet ∨
        (inp.address = address ∧
          ∃ a ∈ inp.amount, a.unit ≠ "lovelace" ∧ a.unit = v) := by
  unfold scanInput
  by_cases h : inp.address = address
  · simp only [h, beq_self_eq_true, if_true, amountFold_set_mem]
    tauto
  · have hb : (inp.address == address) = false := by
      exact beq_eq_false_iff_ne.mpr h
    simp only [hb, Bool.false_eq_true, if_false]
    tauto

theorem scanInput_set_nodup (address : String) (st : InputScan) (inp : UtxoEntry)
    (h : st.outgoingAssetsSet.Nodup) :
    (scanInput address st inp).outgoingAssetsSet.Nodup := by
  unfold scanInput
  split
  · exact amountFold_set_nodup _ _ h
  · exact h

theorem scanFold_set_mem (address : String) (inputs : List UtxoEntry)
    (st : InputScan) (v : String) :
    v ∈ (inputs.foldl (scanInput address) st).outgoingAssetsSet ↔
      v ∈ st.outgoingAssetsSet ∨
        ∃ e ∈ inputs, e.address = address ∧
          ∃ a ∈ e.amount, a.unit ≠ "lovelace" ∧ a.unit = v := by
  induction inputs generalizing st with
  | nil => simp
  | cons i l ih =>
    rw [List.foldl_cons, ih]
    simp only [scanInput_set_mem, List.mem_cons]
    constructor
    · rintro ((hv | hi) | ⟨e, he, hea, ha⟩)
      · exact Or.inl hv
      · exact Or.inr ⟨i, Or.inl rfl, hi⟩
      · exact Or.inr ⟨e, Or.inr he, hea, ha⟩
    · rintro (hv | ⟨e, rfl | he, hea, ha⟩)
      · exact Or.inl (Or.inl hv)
      · exact Or.inl (Or.inr ⟨hea, ha⟩)
      · exact Or.inr ⟨e, he, hea, ha⟩

theorem inputsScan_set_mem (address : String) (inputs : List UtxoEntry)
    (set0 : List String) (v : String) :
    v ∈ (inputsScan address inputs set0).outgoingAssetsSet ↔
      v ∈ set0 ∨
        ∃ e ∈ inputs, e.address = address ∧
          ∃ a ∈ e.amount, a.unit ≠ "lovelace" ∧ a.unit = v := by
  unfold inputsScan
  rw [scanFold_set_mem]

theorem inputsScan_set_nodup (address : String) (inputs : List UtxoEntry)
    (set0 : List String) (h : set0.Nodup) :
    (inputsScan address inputs set0).outgoingAssetsSet.Nodup := by
  unfold inputsScan
  apply foldl_preserves (P := fun st : InputScan => st.outgoingAssetsSet.Nodup)
  · intro a b hp
    exact scanInput_set_nodup address a b hp
  · exact h

theorem processOneTx_set_mem (address : String) (st : AggState) (txhash : String)
    (fetched : Except String (TxUtxos × TxInfo)) (v : String) :
    v ∈ (processOneTx address st txhash fetched).outgoingAssetsSet ↔
      v ∈ st.outgoingAssetsSet ∨ unitMovedOut address (txhash, fetched) v := by
  rcases fetched with e | ⟨⟨oi, oo⟩, ⟨ofee⟩⟩
  · simp [processOneTx, unitMovedOut, scannedInputs]
  · rcases ofee with _ | f
    · simp [processOneTx, unitMovedOut, scannedInputs]
    · rcases oi with _ | ins
      · simp [processOneTx, unitMovedOut, scannedInputs]
      · rcases oo with _ | outs
        · rw [processOneTx_noOutputs]
          simp only [unitMovedOut, scannedInputs, Option.some.injEq]
          rw [inputsScan_set_mem]
          constructor
          · rintro (hv | hrest)
            · exact Or.inl hv
            · exact Or.inr ⟨ins, rfl, hrest⟩
          · rintro (hv | ⟨l, hl, hrest⟩)
            · exact Or.inl hv
            · cases hl; exact Or.inr hrest
        · rw [processOneTx_ok]
          simp only [unitMovedOut, scannedInputs, Option.some.injEq]
          rw [inputsScan_set_mem]
          constructor
          · rintro (hv | hrest)
            · exact Or.inl hv
            · exact Or.inr ⟨ins, rfl, hrest⟩
          · rintro (hv | ⟨l, hl, hrest⟩)
            · exact Or.inl hv
            · cases hl; exact Or.inr hrest

theorem processOneTx_set_nodup (address : String) (st : AggState) (txhash : String)
    (fetched : Except String (TxUtxos × TxInfo))
    (h : st.outgoingAssetsSet.Nodup) :
    (processOneTx address st txhash fetched).outgoingAssetsSet.Nodup := by
  rcases fetched with e | ⟨⟨oi, oo⟩, ⟨ofee⟩⟩
  · exact h
  · rcases ofee with _ | f
    · exact h
    · rcases oi with _ | ins
      · exact h
      · rcases oo with _ | outs
        · rw [processOneTx_noOutputs]
          exact inputsScan_set_nodup address ins _ h
        · rw [processOneTx_ok]
          exact inputsScan_set_nodup address ins _ h

/-! ### Run-level lemmas -/

theorem runFold_set_mem (address : String)
    (txs : List (String × Except String (TxUtxos × TxInfo))) (st : AggState)
    (v : String) :
    v ∈ (txs.foldl (fun st tx => processOneTx address st tx.1 tx.2)
          st).outgoingAssetsSet ↔
      v ∈ st.outgoingAssetsSet ∨ ∃ tx ∈ txs, unitMovedOut address tx v := by
  induction txs generalizing st with
  | nil => simp
  | cons t l ih =>
    rw [List.foldl_cons, ih]
    simp only [processOneTx_set_mem, List.mem_cons]
    constructor
    · rintro ((hv | ht) | ⟨tx, htx, hu⟩)
      · exact Or.inl hv
      · exact Or.inr ⟨t, Or.inl rfl, ht⟩
      · exact Or.inr ⟨tx, Or.inr htx, hu⟩
    · rintro (hv | ⟨tx, rfl | htx, hu⟩)
      · exact Or.inl (Or.inl hv)
      · exact Or.inl (Or.inr hu)
      · exact Or.inr ⟨tx, htx, hu⟩

theorem runAggregator_set_mem (address : String)
    (txs : List (String × Except String (TxUtxos × TxInfo))) (v : String) :
    v ∈ (runAggregator address txs).outgoingAssetsSet ↔
      ∃ tx ∈ txs, unitMovedOut address tx v := by
  unfold runAggregator
  rw [runFold_set_mem]
  simp [initialState]

theorem runAggregator_set_nodup (address : String)
    (txs : List (String × Except String (TxUtxos × TxInfo))) :
    (runAggregator address txs).outgoingAssetsSet.Nodup := by
  unfold runAggregator
  apply foldl_preserves (P := fun st : AggState => st.outgoingAssetsSet.Nodup)
  · intro a b hp
    exact processOneTx_set_nodup address a b.1 b.2 hp
  · simp [initialState]

/-- A recorded moved-out unit is never the string lovelace. -/
theorem unitMovedOut_ne_lovelace {address : String}
    {tx : String × Except String (TxUtxos × TxInfo)} {u : String}
    (h : unitMovedOut address tx u) : u ≠ "lovelace" := by
  obtain ⟨ins, _, e, _, _, a, _, hne, rfl⟩ := h
  exact hne

theorem runFold_summary_length (address : String)
    (txs : List (String × Except String (TxUtxos × TxInfo))) (st : AggState) :
    (txs.foldl (fun st tx => processOneTx address st tx.1 tx.2)
        st).perTxSummary.length =
      st.perTxSummary.length +
        (txs.filter (fun tx => txProcessedOk tx.2)).length := by
  induction txs generalizing st with
  | nil => simp
  | cons t l ih =>
    rw [List.foldl_cons, ih, processOneTx_summary_length]
    by_cases h : txProcessedOk t.2
    · simp [List.filter_cons, h]
      omega
    · simp [List.filter_cons, h]

theorem runAggregator_perTx_length (address : String)
    (txs : List (String × Except String (TxUtxos × TxInfo))) :
    (runAggregator address txs).perTxSummary.length =
      (txs.filter (fun tx => txProcessedOk tx.2)).length := by
  unfold runAggregator
  rw [runFold_summary_length]
  simp [initialState]

/-- The joint accumulation invariant of the main loop: every lovelace total
is, at every moment, the exact integer sum of the corresponding field over
the summaries pushed so far, and every pushed summary satisfies the two fee
properties. -/
def summaryInvariant (st : AggState) : Prop :=
  st.totalReceivedLovelace =
      (st.perTxSummary.map TxSummary.outputs_to_address_lovelace).sum ∧
    st.totalSpentLovelace =
      (st.perTxSummary.map TxSummary.inputs_from_address_lovelace).sum ∧
    st.totalFeesAttributed =
      (st.perTxSummary.map TxSummary.fee_attributed_lovelace).sum ∧
    (∀ s ∈ st.perTxSummary, s.fee_attributed_lovelace ≤ s.fee_lovelace) ∧
    (∀ s ∈ st.perTxSummary,
      s.inputs_from_address_lovelace = 0 → s.fee_attributed_lovelace = 0)

theorem processOneTx_summaryInvariant (address : String) (st : AggState)
    (txhash : String) (fetched : Except String (TxUtxos × TxInfo))
    (hst : summaryInvariant st) :
    summaryInvariant (processOneTx address st txhash fetched) := by
  obtain ⟨h1, h2, h3, h4, h5⟩ := hst
  rcases fetched with e | ⟨⟨oi, oo⟩, ⟨ofee⟩⟩
  · exact ⟨h1, h2, h3, h4, h5⟩
  · rcases ofee with _ | f
    · exact ⟨h1, h2, h3, h4, h5⟩
    · rcases oi with _ | ins
      · exact ⟨h1, h2, h3, h4, h5⟩
      · rcases oo with _ | outs
        · exact ⟨h1, h2, h3, h4, h5⟩
        · rw [processOneTx_ok]
          refine ⟨?_, ?_, ?_, ?_, ?_⟩
          · simp [h1]
          · simp [h2]
          · simp [h3]
          · intro s hs
            rcases List.mem_append.mp hs with hs | hs
            · exact h4 s hs
            · rcases List.mem_singleton.mp hs with rfl
              exact feeAttr_le_fee address f ins
          · intro s hs hzero
            rcases List.mem_append.mp hs with hs | hs
            · exact h5 s hs hzero
            · rcases List.mem_singleton.mp hs with rfl
              simp only at hzero
              simp [feeAttributedToThisAddress, hzero]

theorem runAggregator_summaryInvariant (address : String)
    (txs : List (String × Except String (TxUtxos × TxInfo))) :
    summaryInvariant (runAggregator address txs) := by
  unfold runAggregator
  apply foldl_preserves (P := summaryInvariant)
  · intro a b hp
    exact processOneTx_summaryInvariant address a b.1 b.2 hp
  · refine ⟨rfl, rfl, rfl, ?_, ?_⟩ <;> simp [initialState]

/-! ### The claims -/

/-- C1: for every processed transaction, the fee attributed to the audited
address equals floor(fee * inputsFromAddressLovelace / totalInputsLovelace)
in exact integer arithmetic when both of those sums are positive, and is 0
otherwise; in particular, whenever the audited address contributes zero
lovelace as input to a transaction, the attributed fee of that transaction
is 0.  The first conjunct identifies the summary a successful iteration
pushes, with the attributed fee given by the exact formula over the
independent input sums; the second conjunct is the zero case over all
summaries of any run. -/
theorem C1_fee_attribution (address : String) :
    (∀ (st : AggState) (txhash : String) (ins outs : List UtxoEntry) (f : Nat),
      (processOneTx address st txhash
          (.ok ({ inputs := some ins, outputs := some outs },
                { fee := some f }))).perTxSummary =
        st.perTxSummary ++
          [{ txhash := txhash
             inputs_from_address_lovelace := inputsFromAddressLovelace address ins
             outputs_to_address_lovelace := outputsToAddressLovelace address outs
             fee_lovelace := f
             fee_attributed_lovelace :=
               if 0 < inputsFromAddressLovelace address ins ∧
                   0 < totalInputsLovelace ins then
                 f * inputsFromAddressLovelace address ins / totalInputsLovelace ins
               else 0
             outgoing_assets :=
               (inputsScan address ins
                 st.outgoingAssetsSet).assetsMovedFromAddressThisTx }]) ∧
    (∀ txs, ∀ s ∈ (runAggregator address txs).perTxSummary,
      s.inputs_from_address_lovelace = 0 → s.fee_attributed_lovelace = 0) := by
  constructor
  · intro st txhash ins outs f
    rw [processOneTx_ok]
    rfl
  · intro txs s hs hzero
    exact (runAggregator_summaryInvariant address txs).2.2.2.2 s hs hzero

/-- C2: in every run, the fee attributed to the audited address by any
per-transaction summary never exceeds the total fee of that transaction. -/
theorem C2_fee_attributed_le_fee (address : String)
    (txs : List (String × Except String (TxUtxos × TxInfo))) :
    ∀ s ∈ (runAggregator address txs).perTxSummary,
      s.fee_attributed_lovelace ≤ s.fee_lovelace :=
  (runAggregator_summaryInvariant address txs).2.2.2.1

/-- Concrete run for the C2 witness: the audited address A supplies 4 of the
8 input lovelace of a transaction with fee 10, so the attributed fee is
10 * 4 / 8 = 5. -/
def c2Txs : List (String × Except String (TxUtxos × TxInfo)) :=
  [("t1", .ok
    ({ inputs := some
        [{ address := "A", amount := [{ unit := "lovelace", quantity := 4 }] },
         { address := "B", amount := [{ unit := "lovelace", quantity := 4 }] }]
       outputs := some [] },
     { fee := some 10 }))]

/-- The summary the run over c2Txs pushes. -/
def c2Summary : TxSummary :=
  { txhash := "t1"
    inputs_from_address_lovelace := 4
    outputs_to_address_lovelace := 0
    fee_lovelace := 10
    fee_attributed_lovelace := 5
    outgoing_assets := [] }

/-- Witness for C2 at the concrete run c2Txs: the attributed fee 5 does not
exceed the fee 10. -/
theorem C2_witness :
    c2Summary.fee_attributed_lovelace ≤ c2Summary.fee_lovelace :=
  C2_fee_attributed_le_fee "A" c2Txs c2Summary (by decide)

/-- C9: the divisor of the fee-attribution division is never zero, because
the from-address input sum is a sum over a subset of the entries summed into
the transaction-wide total, hence bounded by it; therefore the second
conjunct of the guard is implied by the first, and the attribution can be
written with the single guard on the from-address sum. -/
theorem C9_divisor_positive (address : String) (fee : Nat)
    (inputs : List UtxoEntry) :
    inputsFromAddressLovelace address inputs ≤ totalInputsLovelace inputs ∧
    (0 < inputsFromAddressLovelace address inputs →
      0 < totalInputsLovelace inputs) ∧
    feeAttributedToThisAddress address fee inputs =
      (if 0 < inputsFromAddressLovelace address inputs then
        fee * inputsFromAddressLovelace address inputs / totalInputsLovelace inputs
      else 0) := by
  have hle := inputsFrom_le_totalInputs address inputs
  refine ⟨hle, fun h => lt_of_lt_of_le h hle, ?_⟩
  unfold feeAttributedToThisAddress
  by_cases h : 0 < inputsFromAddressLovelace address inputs
  · simp [h, lt_of_lt_of_le h hle]
  · simp [h]

/-- C4: every lovelace accumulator is maintained in exact integer arithmetic
throughout the fold: after any run, each of the three totals equals the
exact integer sum of the corresponding per-transaction summary field, and
the division by 1,000,000 into the fractional display fields happens exactly
once, at final report construction, applied to the final accumulator
values. -/
theorem C4_exact_integer_accumulation (address : String)
    (txs : List (String × Except String (TxUtxos × TxInfo))) (txCount : Nat) :
    (runAggregator address txs).totalReceivedLovelace =
        ((runAggregator address txs).perTxSummary.map
          TxSummary.outputs_to_address_lovelace).sum ∧
    (runAggregator address txs).totalSpentLovelace =
        ((runAggregator address txs).perTxSummary.map
          TxSummary.inputs_from_address_lovelace).sum ∧
    (runAggregator address txs).totalFeesAttributed =
        ((runAggregator address txs).perTxSummary.map
          TxSummary.fee_attributed_lovelace).sum ∧
    (buildReport address txCount (runAggregator address txs)).total_received_ada =
        ((runAggregator address txs).totalReceivedLovelace : ℚ) / 1000000 ∧
    (buildReport address txCount (runAggregator address txs)).total_spent_ada =
        ((runAggregator address txs).totalSpentLovelace : ℚ) / 1000000 ∧
    (buildReport address txCount (runAggregator address txs)).estimated_fees_paid_ada =
        ((runAggregator address txs).totalFeesAttributed : ℚ) / 1000000 ∧
    (buildReport address txCount (runAggregator address txs)).net_ada_change =
        ((runAggregator address txs).totalReceivedLovelace : ℚ) / 1000000 -
          ((runAggregator address txs).totalSpentLovelace : ℚ) / 1000000 := by
  obtain ⟨h1, h2, h3, _, _⟩ := runAggregator_summaryInvariant address txs
  exact ⟨h1, h2, h3, rfl, rfl, rfl, rfl⟩

/-- C5: the sum of the per-transaction outputs_to_address_lovelace values
over all successfully processed transactions equals the integer total from
which total_received_ada is derived, and total_received_ada * 1e6 recovers
that sum exactly under the (here exact-rational) final conversion. -/
theorem C5_received_sum_matches_report (address : String)
    (txs : List (String × Except String (TxUtxos × TxInfo))) (txCount : Nat) :
    ((runAggregator address txs).perTxSummary.map
        TxSummary.outputs_to_address_lovelace).sum =
      (runAggregator address txs).totalReceivedLovelace ∧
    (buildReport address txCount (runAggregator address txs)).total_received_ada
        * 1000000 =
      (((runAggregator address txs).perTxSummary.map
        TxSummary.outputs_to_address_lovelace).sum : ℚ) := by
  obtain ⟨h1, _, _, _, _⟩ := runAggregator_summaryInvariant address txs
  refine ⟨h1.symm, ?_⟩
  have hada : (buildReport address txCount
      (runAggregator address txs)).total_received_ada =
      ((runAggregator address txs).totalReceivedLovelace : ℚ) / 1000000 := rfl
  rw [hada, h1]
  exact div_mul_cancel₀ _ (by norm_num)

/-- Concrete run for the C3 counterexample: a single fetched transaction
whose inputs and outputs fields are both missing, with a well-formed fee. -/
def c3Txs : List (String × Except String (TxUtxos × TxInfo)) :=
  [("t1", .ok ({ inputs := none, outputs := none }, { fee := some 100 }))]

/-- C3 counterexample: the claim requires a fetched transaction with missing
inputs and outputs to be normalized to empty arrays and still counted in
per_tx_count, which would make per_tx_count 1 here; the code instead throws
on the missing field, catches, skips the transaction, and reports
per_tx_count 0. -/
theorem C3_counterexample :
    (buildReport "A" 1 (runAggregator "A" c3Txs)).per_tx_count = 0 ∧
    ¬ (buildReport "A" 1 (runAggregator "A" c3Txs)).per_tx_count = 1 := by
  decide

/-- C3 amended: missing inputs or outputs are not normalized to empty
sequences; the per-transaction error is caught and the transaction is
skipped.  With inputs missing the state is completely unchanged (whatever
the outputs and fee fields hold); with outputs missing only the additions
the already-completed input loop made to the outgoing-asset set persist; a
transaction with present but empty inputs and outputs arrays contributes 0
to every accumulator and IS counted in per_tx_count, with an all-zero
summary. -/
theorem C3_amended_missing_fields (address txhash : String) (st : AggState)
    (o : Option (List UtxoEntry)) (fee : Option Nat) (ins : List UtxoEntry)
    (f : Nat) :
    processOneTx address st txhash
        (.ok ({ inputs := none, outputs := o }, { fee := fee })) = st ∧
    processOneTx address st txhash
        (.ok ({ inputs := some ins, outputs := none }, { fee := some f })) =
      { st with outgoingAssetsSet :=
          (inputsScan address ins st.outgoingAssetsSet).outgoingAssetsSet } ∧
    processOneTx address st txhash
        (.ok ({ inputs := some [], outputs := some [] }, { fee := some f })) =
      { st with perTxSummary := st.perTxSummary ++
          [{ txhash := txhash
             inputs_from_address_lovelace := 0
             outputs_to_address_lovelace := 0
             fee_lovelace := f
             fee_attributed_lovelace := 0
             outgoing_assets := [] }] } := by
  refine ⟨?_, rfl, rfl⟩
  rcases fee with _ | f
  · rfl
  · rfl

/-- Concrete run for the C6 counterexample: the only transaction carries a
non-lovelace unit tokenB in an input of the audited address, but its outputs
field is missing, so the transaction is skipped after its input loop already
added tokenB to the global set. -/
def c6Txs : List (String × Except String (TxUtxos × TxInfo)) :=
  [("t1", .ok
    ({ inputs := some
        [{ address := "A",
           amount := [{ unit := "lovelace", quantity := 5 },
                      { unit := "tokenB", quantity := 1 }] }]
       outputs := none },
     { fee := some 7 }))]

/-- C6 counterexample: no transaction of this run is successfully processed
(per_tx_count is 0), yet the final unique asset list contains tokenB, so the
list does not contain exactly the units coming from successfully processed
transactions. -/
theorem C6_counterexample :
    (buildReport "A" 1 (runAggregator "A" c6Txs)).per_tx_count = 0 ∧
    "tokenB" ∈ (buildReport "A" 1 (runAggregator "A" c6Txs)).unique_asset_units_moved_out := by
  decide

/-- C6 amended: the final unique_asset_units_moved_out list contains no
duplicates and contains exactly those units u, other than lovelace, that
appeared in at least one amount of at least one input entry of the audited
address, across all transactions whose input loop ran (fetch succeeded, fee
parsed, inputs present) — including transactions later skipped because their
outputs field was missing, which are not counted as successfully
processed. -/
theorem C6_amended_unique_assets (address : String)
    (txs : List (String × Except String (TxUtxos × TxInfo))) (txCount : Nat) :
    (buildReport address txCount
        (runAggregator address txs)).unique_asset_units_moved_out.Nodup ∧
    ∀ u, u ∈ (buildReport address txCount
        (runAggregator address txs)).unique_asset_units_moved_out ↔
      (u ≠ "lovelace" ∧ ∃ tx ∈ txs, unitMovedOut address tx u) := by
  have hset : (buildReport address txCount
      (runAggregator address txs)).unique_asset_units_moved_out =
      (runAggregator address txs).outgoingAssetsSet := rfl
  rw [hset]
  refine ⟨runAggregator_set_nodup address txs, fun u => ?_⟩
  rw [runAggregator_set_mem]
  constructor
  · rintro ⟨tx, htx, hu⟩
    exact ⟨unitMovedOut_ne_lovelace hu, tx, htx, hu⟩
  · rintro ⟨_, tx, htx, hu⟩
    exact ⟨tx, htx, hu⟩

/-- Concrete run for the C7 counterexample: one transaction fails while
being processed (missing outputs) after its input loop recorded assetX. -/
def c7Txs : List (String × Except String (TxUtxos × TxInfo)) :=
  [("t1", .ok
    ({ inputs := some
        [{ address := "A",
           amount := [{ unit := "lovelace", quantity := 5 },
                      { unit := "assetX", quantity := 2 }] }]
       outputs := none },
     { fee := some 100 }))]

/-- C7 counterexample: the single transaction fails during processing and is
skipped (per_tx_count 0), yet it DID contribute to an accumulator: the
outgoing-asset set of the final report contains assetX. -/
theorem C7_counterexample :
    (buildReport "A" 1 (runAggregator "A" c7Txs)).per_tx_count = 0 ∧
    (buildReport "A" 1 (runAggregator "A" c7Txs)).unique_asset_units_moved_out =
      ["assetX"] := by
  decide

/-- C7 amended: a failure fetching the transaction list of the address
aborts the whole run with no report (non-zero exit, modelled as an error
result), whereas a failure while fetching or processing a single transaction
is caught: the run continues, the skipped transaction pushes no summary and
contributes nothing to the lovelace totals or counters (though one failing
after its input loop may still add units to the outgoing-asset set), and the
final per_tx_count equals the number of successfully processed transactions,
which can be less than tx_count. -/
theorem C7_amended_failure_policy (address err : String)
    (fetch : String → Except String (TxUtxos × TxInfo))
    (hashes : List String) :
    runAudit address (.error err) fetch = .error err ∧
    (∀ (st : AggState) (h e : String),
      processOneTx address st h (.error e) = st) ∧
    (∀ (st : AggState) (h : String) (f : Except String (TxUtxos × TxInfo)),
      txProcessedOk f = false →
        (processOneTx address st h f).totalReceivedLovelace =
            st.totalReceivedLovelace ∧
        (processOneTx address st h f).totalSpentLovelace =
            st.totalSpentLovelace ∧
        (processOneTx address st h f).totalFeesAttributed =
            st.totalFeesAttributed ∧
        (processOneTx address st h f).outgoingWithAssetsCount =
            st.outgoingWithAssetsCount ∧
        (processOneTx address st h f).perTxSummary = st.perTxSummary) ∧
    (∃ rep, runAudit address (.ok hashes) fetch = .ok rep ∧
      rep.tx_count = hashes.length ∧
      rep.per_tx_count =
        ((hashes.map (fun h => (h, fetch h))).filter
          (fun tx => txProcessedOk tx.2)).length) := by
  refine ⟨rfl, fun st h e => rfl,
    fun st h f hf => processOneTx_not_ok address st h f hf,
    ⟨_, rfl, rfl, ?_⟩⟩
  have : (buildReport address hashes.length
      (runAggregator address (hashes.map (fun h => (h, fetch h))))).per_tx_count =
      (runAggregator address (hashes.map (fun h => (h, fetch h)))).perTxSummary.length := rfl
  rw [this, runAggregator_perTx_length]

/-- C8: a locator returning zero transactions yields a report with tx_count
0, per_tx_count 0, every numeric total equal to 0 and an empty unique-asset
list. -/
theorem C8_empty_locator_report (address : String)
    (fetch : String → Except String (TxUtxos × TxInfo)) :
    runAudit address (.ok []) fetch =
      .ok { address := address
            tx_count := 0
            total_received_ada := 0
            total_spent_ada := 0
            net_ada_change := 0
            estimated_fees_paid_ada := 0
            outgoing_txs_with_assets_count := 0
            unique_asset_units_moved_out := []
            per_tx_count := 0 } := by
  simp only [runAudit, runAggregator, List.map_nil, List.foldl_nil, List.length_nil]
  norm_num [buildReport, initialState]

/-- Helper for C10: find? returns the first lovelace amount of a list that
starts with non-lovelace amounts. -/
theorem find_lovelace_append (pre post : List Amount) (a : Amount)
    (hpre : ∀ b ∈ pre, b.unit ≠ "lovelace") (ha : a.unit = "lovelace") :
    (pre ++ a :: post).find? (fun b => b.unit == "lovelace") = some a := by
  induction pre with
  | nil => simp [List.find?_cons, ha]
  | cons b l ih =>
    have hb : (b.unit == "lovelace") = false :=
      beq_eq_false_iff_ne.mpr (hpre b (List.mem_cons_self b l))
    simp only [List.cons_append, List.find?_cons, hb]
    exact ih (fun x hx => hpre x (List.mem_cons_of_mem b hx))

/-- C10: the lovelace contribution of an amount list is taken from only the
first amount whose unit is lovelace — any later lovelace amounts in the same
list are ignored — and a list with no lovelace amount contributes exactly
0. -/
theorem C10_first_lovelace_amount (arr pre post : List Amount) (a : Amount) :
    ((∀ b ∈ arr, b.unit ≠ "lovelace") → sumLovelaceAmount arr = 0) ∧
    ((∀ b ∈ pre, b.unit ≠ "lovelace") → a.unit = "lovelace" →
      sumLovelaceAmount (pre ++ a :: post) = a.quantity) := by
  constructor
  · intro h
    unfold sumLovelaceAmount
    rw [List.find?_eq_none.mpr (fun b hb => by simpa using h b hb)]
  · intro hpre ha
    unfold sumLovelaceAmount
    rw [find_lovelace_append pre post a hpre ha]

end CardanoAddressAudit
